import Mathlib

/-!
Verification development for the freeCashFlowTool repository.

The file shallowly embeds the data-reconciliation and metric-derivation
core of the repository:

* `sec_edgar_api.py` — XBRL fact extraction (`_get_usd_observations`,
  `_get_facts_for_tag`, `_try_multiple_tags`, `_extract_annual_values`,
  `_extract_quarterly_values`) and the fundamentals-assembly portion of
  `get_financial_data`.
* `financial_data_processor.py` — `MetricsCalculator` (`calculate_cagr`,
  `calculate_metric_cagrs`, `add_pe_ratio`, `add_profit_margins`,
  `add_fcf_metrics`) and `DataTransformer.to_financial_dataframe`.
* `streamlit_app.py` — the older `get_cagr_for_metric` variant.

Modelling conventions: Python floats are modelled by exact rationals `ℚ`;
the IEEE-754 special values that pandas produces on division by zero are
modelled by the four-constructor type `PVal` (finite value, +inf, -inf,
NaN).  Float exponentiation `x ** y` (used only by CAGR) is kept abstract
as a function parameter `powf : ℚ → ℚ → ℚ`; no claim below depends on its
value.  pandas DataFrames are modelled as a row count plus an ordered
association list of named columns.  Python's stable `list.sort` /
`sorted` with `reverse=True` is modelled by `List.insertionSort` with the
reversed key order (insertion sort is stable, like timsort).  String
helpers are implemented character-wise so that concrete instances reduce
inside the kernel.
-/

namespace FCF

/-- `charListContains hay pat = true` iff `pat` occurs as a contiguous
sublist of `hay`; character-wise model of Python's `pat in hay`. -/
def charListContains (pat : List Char) : List Char → Bool
  | [] => pat.isEmpty
  | c :: rest => pat.isPrefixOf (c :: rest) || charListContains pat rest

/-- Python `pat in hay` on strings. -/
def strContainsSub (hay pat : String) : Bool :=
  charListContains pat.toList hay.toList

/-- Python `str.upper()` (character-wise, so it reduces in the kernel). -/
def strUpper (s : String) : String :=
  ⟨s.toList.map Char.toUpper⟩

/-- Python `"/" in tag`. -/
def tagHasSlash (tag : String) : Bool :=
  tag.toList.contains (Char.ofNat 47)

/-- Python `tag.split("/", 1)`: split at the first slash.  (The source
only calls this on tags that contain a slash; on a slash-free tag the
model returns the whole tag with an empty remainder.) -/
def splitTag (tag : String) : String × String :=
  let cs := tag.toList
  (⟨cs.takeWhile (· ≠ Char.ofNat 47)⟩, ⟨(cs.dropWhile (· ≠ Char.ofNat 47)).drop 1⟩)

/-- One XBRL fact observation, as it appears inside a company-facts
payload under `facts/<taxonomy>/<concept>/units/<unit>`.  `val` is
`some q` when the JSON value is numeric (Python's
`isinstance(val, (int, float))`), `none` otherwise; optional JSON fields
are `Option`s. -/
structure Obs where
  fp : Option String
  val : Option ℚ
  fy : Option ℤ
  endStr : Option String
  filed : Option String
deriving DecidableEq

/-- The `units` dictionary of one XBRL concept: unit label ↦ observations. -/
structure Concept where
  units : List (String × List Obs)
deriving DecidableEq

/-- A company-facts payload: `facts` maps a taxonomy name (`us-gaap`,
`dei`, …) to its concepts. -/
structure FactsPayload where
  facts : List (String × List (String × Concept))
deriving DecidableEq

/-- `_get_usd_observations` (sec_edgar_api.py:121): concatenate the
observation lists of every unit whose label contains `USD`
case-insensitively. -/
def get_usd_observations (units : List (String × List Obs)) : List Obs :=
  (units.filter (fun u => strContainsSub (strUpper u.1) "USD")).flatMap (·.2)

/-- Taxonomy lookup `facts.get("facts", {}).get(taxonomy, {})`. -/
def taxonomyOf (p : FactsPayload) (taxonomy : String) : List (String × Concept) :=
  (p.facts.lookup taxonomy).getD []

/-- Concept lookup with `{}` default, as in the source's chained `.get`. -/
def conceptOf (p : FactsPayload) (taxonomy name : String) : Concept :=
  ((taxonomyOf p taxonomy).lookup name).getD ⟨[]⟩

/-- `_get_facts_for_tag` (sec_edgar_api.py:134): split `taxonomy/name`
at the first slash and return the unit-filtered observations. -/
def get_facts_for_tag (p : FactsPayload) (tag : String) : List Obs :=
  let tn := splitTag tag
  get_usd_observations (conceptOf p tn.1 tn.2).units

/-- The observations one candidate tag yields inside `_try_multiple_tags`
(sec_edgar_api.py:191): qualified tags are looked up as `taxonomy/name`;
unqualified tags are searched in both the `dei` and `us-gaap` groups. -/
def tag_observations (p : FactsPayload) (tag : String) : List Obs :=
  if tagHasSlash tag then get_facts_for_tag p tag
  else (["dei", "us-gaap"].map (fun tax => get_usd_observations (conceptOf p tax tag).units)).flatten

/-- `_try_multiple_tags` (sec_edgar_api.py:191): return the first
candidate's non-empty observation list, or `[]` when every candidate
yields nothing. -/
def try_multiple_tags (p : FactsPayload) : List String → List Obs
  | [] => []
  | tag :: rest =>
    let observations := tag_observations p tag
    if observations.isEmpty then try_multiple_tags p rest else observations

/-- Sort key `(int(x.get("fy") or 0), x.get("end") or "")`. -/
def obsKey (o : Obs) : ℤ × String :=
  (o.fy.getD 0, o.endStr.getD "")

/-- Descending comparison used for `sort(..., reverse=True)`: `a` may come
before `b` iff `a`'s key is lexicographically ≥ `b`'s. -/
def obsKeyGE (a b : Obs) : Prop :=
  (obsKey b).1 < (obsKey a).1 ∨ ((obsKey a).1 = (obsKey b).1 ∧ (obsKey b).2 ≤ (obsKey a).2)

instance : DecidableRel obsKeyGE := fun a b => by
  unfold obsKeyGE; infer_instance

/-- One row of the extracted annual series. -/
structure AnnualRow where
  year : Option ℤ
  value : ℚ
  end_date : Option String
  filed : Option String
deriving DecidableEq

/-- One row of the extracted quarterly series. -/
structure QuarterRow where
  year : Option ℤ
  quarter : Option String
  value : ℚ
  end_date : Option String
  filed : Option String
deriving DecidableEq

/-- The result-building loop of `_extract_annual_values`: walk the sorted
observations, skip fiscal years already seen, append a row otherwise, and
stop once `years` rows have been collected. -/
def annualLoop (years : ℕ) : List Obs → List (Option ℤ) → ℕ → List AnnualRow
  | [], _, _ => []
  | o :: rest, seen, cnt =>
    if seen.contains o.fy then annualLoop years rest seen cnt
    else
      let row : AnnualRow := ⟨o.fy, o.val.getD 0, o.endStr, o.filed⟩
      if years ≤ cnt + 1 then [row]
      else row :: annualLoop years rest (o.fy :: seen) (cnt + 1)

/-- `_extract_annual_values` (sec_edgar_api.py:141): keep numeric `FY`
observations, sort most-recent-first by `(fy, end)`, deduplicate by
fiscal year and truncate to `years` rows. -/
def extract_annual_values (observations : List Obs) (years : ℕ) : List AnnualRow :=
  let annuals := observations.filter (fun o => o.fp == some "FY" && o.val.isSome)
  let sorted := annuals.insertionSort obsKeyGE
  annualLoop years sorted [] 0

/-- `_extract_quarterly_values` (sec_edgar_api.py:169): keep numeric
`Q1`–`Q4` observations, sort most-recent-first, truncate to `quarters`. -/
def extract_quarterly_values (observations : List Obs) (quarters : ℕ) : List QuarterRow :=
  let quarterlies := observations.filter
    (fun o => (o.fp == some "Q1" || o.fp == some "Q2" || o.fp == some "Q3" || o.fp == some "Q4")
      && o.val.isSome)
  let sorted := quarterlies.insertionSort obsKeyGE
  (sorted.take quarters).map (fun o => ⟨o.fy, o.fp, o.val.getD 0, o.endStr, o.filed⟩)

/-- `TAG_CANDIDATES["cfo"]` (sec_edgar_api.py:34). -/
def cfoTags : List String :=
  ["us-gaap/NetCashProvidedByUsedInOperatingActivities",
   "us-gaap/NetCashProvidedByUsedInOperatingActivitiesContinuingOperations"]

/-- `TAG_CANDIDATES["capex"]` (sec_edgar_api.py:38). -/
def capexTags : List String :=
  ["us-gaap/PaymentsToAcquirePropertyPlantAndEquipment",
   "us-gaap/PaymentsToAcquireProductiveAssets"]

/-- `TAG_CANDIDATES["sbc"]` (sec_edgar_api.py:42). -/
def sbcTags : List String :=
  ["us-gaap/ShareBasedCompensation",
   "us-gaap/AllocatedShareBasedCompensationExpense"]

/-- `TAG_CANDIDATES["eps"]` (sec_edgar_api.py:46). -/
def epsTags : List String :=
  ["us-gaap/EarningsPerShareBasic",
   "us-gaap/EarningsPerShareDiluted"]

/-- One row of the derived annual free-cash-flow series
(`fcf_annual` entries in `get_financial_data`). -/
structure FcfRow where
  year : Option ℤ
  value : ℚ
  cfo : ℚ
  capex : ℚ
deriving DecidableEq

/-- The fundamentals extracted by `get_financial_data`. -/
structure FinancialMetrics where
  eps_quarterly : List QuarterRow
  cfo_annual : List AnnualRow
  capex_annual : List AnnualRow
  sbc_annual : List AnnualRow
  fcf_annual : List FcfRow
deriving DecidableEq

/-- The fundamentals-assembly portion of `get_financial_data`
(sec_edgar_api.py:462–487): resolve EPS/CFO/CapEx/SBC through
`_try_multiple_tags`, extract the per-period series, and build the
annual FCF list by pairing each CFO year with the CapEx entry of the
same year (`FCF = CFO - CapEx`); CFO years without a matching CapEx
year are skipped. -/
def buildFinancialMetrics (p : FactsPayload) : FinancialMetrics :=
  let eps_observations := try_multiple_tags p epsTags
  let cfo_observations := try_multiple_tags p cfoTags
  let capex_observations := try_multiple_tags p capexTags
  let sbc_observations := try_multiple_tags p sbcTags
  let cfo_annual := extract_annual_values cfo_observations 5
  let capex_annual := extract_annual_values capex_observations 5
  let sbc_annual := extract_annual_values sbc_observations 5
  let fcf_annual := cfo_annual.filterMap (fun cfo_year =>
    (capex_annual.find? (fun c => c.year == cfo_year.year)).map (fun capex_year =>
      ⟨cfo_year.year, cfo_year.value - capex_year.value, cfo_year.value, capex_year.value⟩))
  { eps_quarterly := extract_quarterly_values eps_observations 20
    cfo_annual := cfo_annual
    capex_annual := capex_annual
    sbc_annual := sbc_annual
    fcf_annual := fcf_annual }

/-- A pandas cell value: a finite float (kept exact as a rational), an
IEEE infinity, or NaN.  Signed zero and rounding are not modelled. -/
inductive PVal where
  | num (q : ℚ)
  | posInf
  | negInf
  | nan
deriving DecidableEq

namespace PVal

/-- IEEE-style division as pandas/NumPy performs it elementwise:
a finite value divided by zero gives a signed infinity (NaN for 0/0). -/
def div : PVal → PVal → PVal
  | nan, _ => nan
  | _, nan => nan
  | num a, num b =>
    if b = 0 then (if 0 < a then posInf else if a < 0 then negInf else nan)
    else num (a / b)
  | num _, posInf => num 0
  | num _, negInf => num 0
  | posInf, num b => if 0 ≤ b then posInf else negInf
  | negInf, num b => if 0 ≤ b then negInf else posInf
  | posInf, posInf => nan
  | posInf, negInf => nan
  | negInf, posInf => nan
  | negInf, negInf => nan

/-- IEEE-style subtraction (used by `fcf_minus_sbc`). -/
def sub : PVal → PVal → PVal
  | nan, _ => nan
  | _, nan => nan
  | num a, num b => num (a - b)
  | num _, posInf => negInf
  | num _, negInf => posInf
  | posInf, num _ => posInf
  | posInf, negInf => posInf
  | posInf, posInf => nan
  | negInf, num _ => negInf
  | negInf, posInf => negInf
  | negInf, negInf => nan

/-- Multiplication by the positive constant `100` (the `* 100` step of
the ratio formulas). -/
def mul100 : PVal → PVal
  | num a => num (a * 100)
  | posInf => posInf
  | negInf => negInf
  | nan => nan

/-- `Series.replace([inf, -inf], nan)` on one cell. -/
def replaceInf : PVal → PVal
  | posInf => nan
  | negInf => nan
  | v => v

end PVal

/-- A pandas DataFrame: a row count and an ordered list of named
columns.  (Well-formed frames have every column of length `nrows`;
theorems state that hypothesis where they need it.) -/
structure DF (α : Type) where
  nrows : ℕ
  cols : List (String × List α)
deriving DecidableEq

namespace DF

variable {α : Type}

/-- `name in df.columns`. -/
def hasCol (df : DF α) (name : String) : Bool :=
  (df.cols.lookup name).isSome

/-- `df[name]`, with `[]` for a missing column (the sources only read
columns they have checked for, or that the claims assume present). -/
def getCol (df : DF α) (name : String) : List α :=
  (df.cols.lookup name).getD []

/-- `df[name] = vals`: replace the column in place if it exists,
otherwise append it on the right, as pandas assignment does. -/
def setCol (df : DF α) (name : String) (vals : List α) : DF α :=
  if (df.cols.lookup name).isSome then
    { df with cols := df.cols.map (fun c => if c.1 = name then (name, vals) else c) }
  else
    { df with cols := df.cols ++ [(name, vals)] }

/-- `df.empty`: some axis has length zero. -/
def isEmpty (df : DF α) : Bool :=
  df.nrows == 0 || df.cols.isEmpty

end DF

/-- `MetricsCalculator.calculate_cagr` (financial_data_processor.py:87):
`None` for non-positive start, end, or years; otherwise
`((end/start) ** (1/years) - 1) * 100`.  `powf` abstracts float `**`. -/
def calculate_cagr (powf : ℚ → ℚ → ℚ) (start_value end_value : ℚ) (years : ℤ) : Option ℚ :=
  if start_value ≤ 0 ∨ end_value ≤ 0 ∨ years ≤ 0 then none
  else some ((powf (end_value / start_value) (1 / (years : ℚ)) - 1) * 100)

/-- Two decimal digits of `k % 100`, zero-padded (the fractional part of
Python's `f"{x:.2f}"`). -/
def twoDigits (k : ℕ) : String :=
  ⟨[Char.ofNat (48 + k / 10 % 10), Char.ofNat (48 + k % 10)]⟩

/-- Python `f"{q:.2f}"`: sign, integer part, point, two fractional
digits (rounding modelled as round-half-up on the exact rational). -/
def fmt2 (q : ℚ) : String :=
  let n : ℕ := (⌊|q| * 100 + 1 / 2⌋).toNat
  (if q < 0 then "-" else "") ++ toString (n / 100) ++ "." ++ twoDigits (n % 100)

/-- Python `f"{cagr:.2f}%"`. -/
def fmtPct (q : ℚ) : String :=
  fmt2 q ++ "%"

/-- `MetricsCalculator.calculate_metric_cagrs` (financial_data_processor.py:94):
for each window, when the frame has more than `period` rows and the
metric column exists, compute CAGR from the element `period+1` positions
from the end to the last element; keep the formatted value when CAGR is
defined.  The result dict is modelled as an association list in insertion
order. -/
def calculate_metric_cagrs (powf : ℚ → ℚ → ℚ) (df : DF ℚ) (metric_col : String)
    (periods : List ℕ) : List (String × String) :=
  periods.foldl (fun cagrs period =>
    if period < df.nrows ∧ df.hasCol metric_col then
      let vals := df.getCol metric_col
      let end_val := vals.getD (df.nrows - 1) 0
      let start_val := vals.getD (df.nrows - (period + 1)) 0
      match calculate_cagr powf start_val end_val (period : ℤ) with
      | some cagr => cagrs ++ [(toString period ++ "Y", fmtPct cagr)]
      | none => cagrs
    else cagrs) []

/-- `get_cagr_for_metric` (streamlit_app.py:82): the older variant.  It
names the last element `start_val` and the older element `end_val`, then
calls `calculate_cagr(end_val, start_val, period)`.  It does not check
that the column exists (Python would raise a `KeyError`; the model reads
the missing column as empty). -/
def get_cagr_for_metric (powf : ℚ → ℚ → ℚ) (df : DF ℚ) (metric_col : String)
    (periods : List ℕ) : List (String × String) :=
  periods.foldl (fun cagrs period =>
    if period < df.nrows then
      let vals := df.getCol metric_col
      let start_val := vals.getD (df.nrows - 1) 0
      let end_val := vals.getD (df.nrows - (period + 1)) 0
      match calculate_cagr powf end_val start_val (period : ℤ) with
      | some cagr => cagrs ++ [(toString period ++ "Y", fmtPct cagr)]
      | none => cagrs
    else cagrs) []

/-- `MetricsCalculator.add_pe_ratio` (financial_data_processor.py:108):
when `epsDiluted` exists and the price is positive, assign
`pe = price / epsDiluted` and then replace `±inf` by NaN; otherwise
return the frame unchanged. -/
def add_pe_ratio (income_df : DF PVal) (current_price : ℚ) : DF PVal :=
  if income_df.hasCol "epsDiluted" ∧ 0 < current_price then
    let withPe := income_df.setCol "pe"
      ((income_df.getCol "epsDiluted").map (fun e => (PVal.num current_price).div e))
    withPe.setCol "pe" ((withPe.getCol "pe").map PVal.replaceInf)
  else income_df

/-- The `margin_metrics` pairs of `add_profit_margins`
(financial_data_processor.py:125). -/
def margin_metrics : List (String × String) :=
  [("grossProfit", "grossProfitRatio"),
   ("operatingIncome", "operatingIncomeRatio"),
   ("netIncome", "netIncomeRatio")]

/-- The loop body of `add_profit_margins`: if the metric column `mr.1`
exists, assign the ratio column `mr.2 = mr.1 / revenue * 100`. -/
def marginStep (acc : DF PVal) (mr : String × String) : DF PVal :=
  if acc.hasCol mr.1 then
    acc.setCol mr.2
      (List.zipWith (fun m r => (m.div r).mul100) (acc.getCol mr.1) (acc.getCol "revenue"))
  else acc

/-- `MetricsCalculator.add_profit_margins` (financial_data_processor.py:119):
unchanged when `revenue` is missing or the frame is empty; otherwise, for
each metric column present, assign `ratio = metric / revenue * 100`.
No infinity replacement is performed. -/
def add_profit_margins (income_df : DF PVal) : DF PVal :=
  if !income_df.hasCol "revenue" || income_df.isEmpty then income_df
  else margin_metrics.foldl marginStep income_df

/-- `MetricsCalculator.add_fcf_metrics` (financial_data_processor.py:138):
unchanged when the frame is empty; when both `freeCashFlow` and
`stockBasedCompensation` exist, assign `fcf_minus_sbc` as their
difference, and only when `market_cap > 0` also assign
`fcf_yield = fcf_minus_sbc / market_cap * 100`. -/
def add_fcf_metrics (cashflow_df : DF PVal) (market_cap : ℚ) : DF PVal :=
  if cashflow_df.isEmpty then cashflow_df
  else if cashflow_df.hasCol "freeCashFlow" ∧ cashflow_df.hasCol "stockBasedCompensation" then
    let df1 := cashflow_df.setCol "fcf_minus_sbc"
      (List.zipWith PVal.sub (cashflow_df.getCol "freeCashFlow")
        (cashflow_df.getCol "stockBasedCompensation"))
    if 0 < market_cap then
      df1.setCol "fcf_yield"
        ((df1.getCol "fcf_minus_sbc").map (fun v => (v.div (PVal.num market_cap)).mul100))
    else df1
  else cashflow_df

/-- `DataTransformer.to_financial_dataframe` (financial_data_processor.py:47):
empty input gives an empty frame; otherwise the rows are sorted ascending
by their parsed date.  A row is modelled as its parsed date (a natural
timestamp) paired with its remaining payload; sorting is by date only,
exactly as `sort_values('date')`. -/
def to_financial_dataframe {α : Type} (data : List (ℕ × α)) : List (ℕ × α) :=
  if data.isEmpty then []
  else data.insertionSort (fun a b => a.1 ≤ b.1)

/-! ### Concrete inputs used by witnesses and counterexamples -/

/-- A payload in which neither `us-gaap/Foo` nor `us-gaap/Bar` exists but
`us-gaap/FooBarBaz` has a USD observation (the spec's keyword-scan
scenario for keywords `["foo", "bar"]`). -/
def fooPayload : FactsPayload :=
  ⟨[("us-gaap",
      [("FooBarBaz", ⟨[("USD", [⟨some "FY", some 7, some 2023, some "2023-12-31", none⟩])]⟩)])]⟩

/-- Four quarterly CFO observations of one fiscal year, no FY
observation — the spec's TTM-fallback scenario. -/
def q4Obs : List Obs :=
  [⟨some "Q1", some 10, some 2023, some "2023-03-31", none⟩,
   ⟨some "Q2", some 20, some 2023, some "2023-06-30", none⟩,
   ⟨some "Q3", some 30, some 2023, some "2023-09-30", none⟩,
   ⟨some "Q4", some 40, some 2023, some "2023-12-31", none⟩]

/-- A payload with FY observations for the first CapEx and SBC candidate
concepts but none of the CFO candidates. -/
def cfoMissingPayload : FactsPayload :=
  ⟨[("us-gaap",
      [("PaymentsToAcquirePropertyPlantAndEquipment",
         ⟨[("USD", [⟨some "FY", some 100, some 2023, some "2023-12-31", none⟩])]⟩),
       ("ShareBasedCompensation",
         ⟨[("USD", [⟨some "FY", some 50, some 2023, some "2023-12-31", none⟩])]⟩)])]⟩

/-- The income frame of the zero-EPS regression test. -/
def epsDF : DF PVal :=
  ⟨3, [("epsDiluted", [PVal.num 0, PVal.num 5, PVal.num 10])]⟩

/-- The cashflow frame of the zero-market-cap regression test. -/
def cashflowDF : DF PVal :=
  ⟨3, [("freeCashFlow", [PVal.num 1000, PVal.num 2000, PVal.num 3000]),
       ("stockBasedCompensation", [PVal.num 100, PVal.num 200, PVal.num 300])]⟩

/-- Zero-revenue income frame: one period, revenue 0, gross profit 30. -/
def marginCexDF : DF PVal :=
  ⟨1, [("revenue", [PVal.num 0]), ("grossProfit", [PVal.num 30])]⟩

/-- Two-period income frame with a zero-revenue period. -/
def marginWitnessDF : DF PVal :=
  ⟨2, [("revenue", [PVal.num 0, PVal.num 100]), ("grossProfit", [PVal.num 30, PVal.num 60])]⟩

instance instIsTotalDateLe {α : Type} : IsTotal (ℕ × α) (fun a b => a.1 ≤ b.1) :=
  ⟨fun a b => Nat.le_total a.1 b.1⟩

instance instIsTransDateLe {α : Type} : IsTrans (ℕ × α) (fun a b => a.1 ≤ b.1) :=
  ⟨fun _ _ _ => Nat.le_trans⟩

/-- The five-point revenue frame of the acceptance tests. -/
def cagrDF : DF ℚ :=
  ⟨5, [("revenue", [100, 110, 120, 130, 150])]⟩

/-- The shape `…".NN%"`: a prefix, a point, exactly two decimal digits,
and a percent sign. -/
def twoDecimalPercent (s : String) : Prop :=
  ∃ (pre : String) (d1 d2 : Char), d1.isDigit = true ∧ d2.isDigit = true ∧
    s = pre ++ "." ++ (⟨[d1, d2]⟩ : String) ++ "%"

/-- A two-point series containing a non-positive value. -/
def cagrCexDF : DF ℚ :=
  ⟨2, [("revenue", [-1, 1])]⟩

/-- A strictly positive two-point series. -/
def cagrWitDF : DF ℚ :=
  ⟨2, [("m", [1, 2])]⟩

/-! ### Helper lemmas about the DataFrame model -/

theorem lookup_mapReplace_self {β : Type} (name : String) (vals : β) :
    ∀ l : List (String × β), (l.lookup name).isSome →
      (l.map (fun c => if c.1 = name then (name, vals) else c)).lookup name = some vals := by
  intro l
  induction l with
  | nil => intro h; simp [List.lookup] at h
  | cons c t ih =>
    intro h
    rw [List.map_cons]
    by_cases hc : c.1 = name
    · rw [if_pos hc]
      simp [List.lookup]
    · rw [if_neg hc]
      have hb : (name == c.1) = false := by simp [Ne.symm hc]
      rw [List.lookup, hb] at h ⊢
      exact ih h

theorem lookup_mapReplace_ne {β : Type} (name name' : String) (vals : β) (hne : name' ≠ name) :
    ∀ l : List (String × β),
      (l.map (fun c => if c.1 = name then (name, vals) else c)).lookup name' = l.lookup name' := by
  intro l
  induction l with
  | nil => simp
  | cons c t ih =>
    rw [List.map_cons]
    by_cases hc : c.1 = name
    · rw [if_pos hc]
      have hb : (name' == name) = false := by simp [hne]
      have hb' : (name' == c.1) = false := by rw [hc]; exact hb
      rw [List.lookup, List.lookup, hb, hb']
      exact ih
    · rw [if_neg hc]
      rw [List.lookup, List.lookup]
      cases hbeq : name' == c.1
      · exact ih
      · rfl

theorem lookup_append_single_self {β : Type} (name : String) (vals : β) :
    ∀ l : List (String × β), l.lookup name = none →
      (l ++ [(name, vals)]).lookup name = some vals := by
  intro l
  induction l with
  | nil =>
    intro _
    simp [List.lookup]
  | cons c t ih =>
    intro h
    rw [List.cons_append, List.lookup]
    rw [List.lookup] at h
    cases hbeq : name == c.1
    · rw [hbeq] at h
      exact ih h
    · rw [hbeq] at h
      exact absurd h (by simp)

theorem lookup_append_single_ne {β : Type} (name name' : String) (vals : β) (hne : name' ≠ name) :
    ∀ l : List (String × β), (l ++ [(name, vals)]).lookup name' = l.lookup name' := by
  intro l
  induction l with
  | nil =>
    have hb : (name' == name) = false := by simp [hne]
    simp [List.lookup, hb]
  | cons c t ih =>
    rw [List.cons_append, List.lookup, List.lookup]
    cases hbeq : name' == c.1
    · exact ih
    · rfl

theorem DF.lookup_setCol_self {α : Type} (df : DF α) (name : String) (vals : List α) :
    (df.setCol name vals).cols.lookup name = some vals := by
  unfold DF.setCol
  split
  · exact lookup_mapReplace_self name vals df.cols (by assumption)
  · apply lookup_append_single_self
    rename_i h
    exact Option.not_isSome_iff_eq_none.mp h

theorem DF.lookup_setCol_ne {α : Type} (df : DF α) (name name' : String) (vals : List α)
    (hne : name' ≠ name) :
    (df.setCol name vals).cols.lookup name' = df.cols.lookup name' := by
  unfold DF.setCol
  split
  · exact lookup_mapReplace_ne name name' vals hne df.cols
  · exact lookup_append_single_ne name name' vals hne df.cols

theorem DF.nrows_setCol {α : Type} (df : DF α) (name : String) (vals : List α) :
    (df.setCol name vals).nrows = df.nrows := by
  unfold DF.setCol
  split <;> rfl

theorem DF.getCol_setCol_self {α : Type} (df : DF α) (name : String) (vals : List α) :
    (df.setCol name vals).getCol name = vals := by
  unfold DF.getCol
  rw [DF.lookup_setCol_self]
  rfl

theorem DF.hasCol_setCol_ne {α : Type} (df : DF α) (name name' : String) (vals : List α)
    (hne : name' ≠ name) :
    (df.setCol name vals).hasCol name' = df.hasCol name' := by
  unfold DF.hasCol
  rw [DF.lookup_setCol_ne df name name' vals hne]

theorem DF.getCol_setCol_ne {α : Type} (df : DF α) (name name' : String) (vals : List α)
    (hne : name' ≠ name) :
    (df.setCol name vals).getCol name' = df.getCol name' := by
  unfold DF.getCol
  rw [DF.lookup_setCol_ne df name name' vals hne]

/-! ### Claim C5 — CAGR formula and guard -/

/-- C5: for positive `startValue`, `endValue` and `years`,
`calculate_cagr` returns `((endValue/startValue) ** (1/years) - 1) * 100`
(float `**` abstracted as `powf`); for any non-positive argument it
returns the undefined sentinel `none` instead of raising. -/
theorem calculate_cagr_spec (powf : ℚ → ℚ → ℚ) (s e : ℚ) (y : ℤ) :
    (0 < s → 0 < e → 0 < y →
      calculate_cagr powf s e y = some ((powf (e / s) (1 / (y : ℚ)) - 1) * 100)) ∧
    ((s ≤ 0 ∨ e ≤ 0 ∨ y ≤ 0) → calculate_cagr powf s e y = none) := by
  constructor
  · intro hs he hy
    have h : ¬(s ≤ 0 ∨ e ≤ 0 ∨ y ≤ 0) := by
      push_neg
      exact ⟨hs, he, hy⟩
    simp [calculate_cagr, h]
  · intro h
    simp [calculate_cagr, h]

/-- Witness for C5 at `start = 1`, `end = 2`, `years = 1` (and the guard
at `years = 0`). -/
theorem calculate_cagr_spec_witness :
    calculate_cagr (fun a _ => a) 1 2 1 = some 100 ∧
    calculate_cagr (fun a _ => a) 1 2 0 = none := by
  constructor
  · have h := (calculate_cagr_spec (fun a _ => a) 1 2 1).1 one_pos two_pos one_pos
    rw [h]
    norm_num
  · exact (calculate_cagr_spec (fun a _ => a) 1 2 0).2 (Or.inr (Or.inr le_rfl))

/-! ### Claim C1 — tag resolution fallback -/

/-- C1 (amended): when no explicit candidate tag yields a non-empty
unit-filtered observation list, `_try_multiple_tags` returns the empty
observation list — it performs no keyword scan over the available
concept names and raises no error. -/
theorem try_multiple_tags_all_empty (p : FactsPayload) (tags : List String)
    (h : ∀ t ∈ tags, tag_observations p t = []) : try_multiple_tags p tags = [] := by
  induction tags with
  | nil => rfl
  | cons t rest ih =>
    have ht : tag_observations p t = [] := h t (by simp)
    unfold try_multiple_tags
    simp only [ht, List.isEmpty_nil, if_true]
    exact ih (fun t' ht' => h t' (by simp [ht']))

/-- Counterexample to C1 as stated: the resolver returns `[]`, not the
observations of the keyword-matching concept `us-gaap/FooBarBaz`
(which are non-empty and whose name contains both keywords
case-insensitively), and no error value exists. -/
theorem try_multiple_tags_no_keyword_scan_cex :
    try_multiple_tags fooPayload ["us-gaap/Foo", "us-gaap/Bar"] = [] ∧
    tag_observations fooPayload "us-gaap/FooBarBaz" =
      [⟨some "FY", some 7, some 2023, some "2023-12-31", none⟩] ∧
    strContainsSub (strUpper "FooBarBaz") (strUpper "foo") = true ∧
    strContainsSub (strUpper "FooBarBaz") (strUpper "bar") = true := by
  decide

/-- Witness for C1 (amended) at the concrete scenario payload. -/
theorem try_multiple_tags_all_empty_witness :
    try_multiple_tags fooPayload ["us-gaap/Foo", "us-gaap/Bar"] = [] :=
  try_multiple_tags_all_empty fooPayload ["us-gaap/Foo", "us-gaap/Bar"] (by decide)

/-! ### Claim C2 — no TTM fallback in annual extraction -/

/-- C2 (amended): when the observation list contains no `FY` observation,
`_extract_annual_values` returns the empty list — quarterly observations
are never summed into a synthetic TTM value by annual selection. -/
theorem extract_annual_values_no_ttm (observations : List Obs) (years : ℕ)
    (h : ∀ o ∈ observations, o.fp ≠ some "FY") :
    extract_annual_values observations years = [] := by
  unfold extract_annual_values
  have hf : observations.filter (fun o => o.fp == some "FY" && o.val.isSome) = [] := by
    rw [List.filter_eq_nil_iff]
    intro o ho
    simp [h o ho]
  rw [hf]
  rfl

/-- Counterexample to C2 as stated: with four quarterly observations and
no FY observation, annual selection returns no value at all (it does not
return their sum), although the quarterly observation count is 4 ≠ 0. -/
theorem extract_annual_values_ttm_cex :
    extract_annual_values q4Obs 5 = [] ∧
    (q4Obs.filter (fun o =>
      o.fp == some "Q1" || o.fp == some "Q2" || o.fp == some "Q3" || o.fp == some "Q4")).length
      = 4 := by
  decide

/-- Witness for C2 (amended) at the four-quarter scenario. -/
theorem extract_annual_values_no_ttm_witness :
    extract_annual_values q4Obs 5 = [] :=
  extract_annual_values_no_ttm q4Obs 5 (by decide)

/-! ### Claim C3 — orchestration does not fail as a whole -/

/-- C3 (amended): `get_financial_data`'s fundamentals assembly never
aborts when one of CFO/CapEx/SBC resolves to no data: a failed CFO
resolution merely makes the derived FCF list empty, while the CapEx and
SBC series are still extracted and returned (partial results). -/
theorem buildFinancialMetrics_partial (p : FactsPayload)
    (h : try_multiple_tags p cfoTags = []) :
    (buildFinancialMetrics p).fcf_annual = [] ∧
    (buildFinancialMetrics p).capex_annual
      = extract_annual_values (try_multiple_tags p capexTags) 5 ∧
    (buildFinancialMetrics p).sbc_annual
      = extract_annual_values (try_multiple_tags p sbcTags) 5 := by
  have h0 : extract_annual_values [] 5 = [] := rfl
  unfold buildFinancialMetrics
  simp [h, h0]

/-- Counterexample to C3 as stated: with CFO unresolvable, the operation
still returns the extracted CapEx and SBC series — a partial result —
rather than failing as a whole. -/
theorem get_financial_data_partial_cex :
    (buildFinancialMetrics cfoMissingPayload).cfo_annual = [] ∧
    (buildFinancialMetrics cfoMissingPayload).fcf_annual = [] ∧
    (buildFinancialMetrics cfoMissingPayload).capex_annual
      = [⟨some 2023, 100, some "2023-12-31", none⟩] ∧
    (buildFinancialMetrics cfoMissingPayload).sbc_annual
      = [⟨some 2023, 50, some "2023-12-31", none⟩] := by
  decide

/-- Witness for C3 (amended) at the CFO-missing payload. -/
theorem buildFinancialMetrics_partial_witness :
    (buildFinancialMetrics cfoMissingPayload).fcf_annual = [] ∧
    (buildFinancialMetrics cfoMissingPayload).capex_annual
      = extract_annual_values (try_multiple_tags cfoMissingPayload capexTags) 5 ∧
    (buildFinancialMetrics cfoMissingPayload).sbc_annual
      = extract_annual_values (try_multiple_tags cfoMissingPayload sbcTags) 5 :=
  buildFinancialMetrics_partial cfoMissingPayload (by decide)

/-! ### Claim C8 — P/E ratio -/

/-- Neither branch of `replace([inf, -inf], nan)` produces an infinity. -/
theorem replaceInf_ne_inf (w : PVal) :
    PVal.replaceInf w ≠ PVal.posInf ∧ PVal.replaceInf w ≠ PVal.negInf := by
  cases w <;> simp [PVal.replaceInf]

/-- C8: with a non-positive price the frame is returned unchanged (no
`pe` column computed); with a positive price and an `epsDiluted` column
the `pe` column is `price / epsDiluted` per period with every `±inf`
(from zero EPS) replaced by NaN, so no infinity is ever propagated. -/
theorem add_pe_ratio_spec (df : DF PVal) (price : ℚ) :
    (price ≤ 0 → add_pe_ratio df price = df) ∧
    (0 < price → df.hasCol "epsDiluted" = true →
      (add_pe_ratio df price).getCol "pe"
        = (df.getCol "epsDiluted").map (fun e => PVal.replaceInf ((PVal.num price).div e)) ∧
      ∀ v ∈ (add_pe_ratio df price).getCol "pe",
        v ≠ PVal.posInf ∧ v ≠ PVal.negInf) := by
  constructor
  · intro hp
    unfold add_pe_ratio
    rw [if_neg]
    rintro ⟨-, hpos⟩
    exact absurd hpos (not_lt.mpr hp)
  · intro hp hcol
    have hcond : df.hasCol "epsDiluted" = true ∧ 0 < price := ⟨hcol, hp⟩
    have hres : (add_pe_ratio df price).getCol "pe"
        = (df.getCol "epsDiluted").map (fun e => PVal.replaceInf ((PVal.num price).div e)) := by
      unfold add_pe_ratio
      rw [if_pos hcond, DF.getCol_setCol_self, DF.getCol_setCol_self, List.map_map]
      rfl
    refine ⟨hres, ?_⟩
    rw [hres]
    intro v hv
    obtain ⟨e, -, he⟩ := List.mem_map.mp hv
    rw [← he]
    exact replaceInf_ne_inf _

/-- Witness for C8: `price = 0` leaves the frame unchanged, and
`price = 150` yields `pe = [NaN, 150/5, 150/10]` — the zero-EPS cell is
NaN, not infinity. -/
theorem add_pe_ratio_spec_witness :
    add_pe_ratio epsDF 0 = epsDF ∧
    (add_pe_ratio epsDF 150).getCol "pe"
      = [PVal.nan, PVal.num (150 / 5), PVal.num (150 / 10)] := by
  constructor
  · exact (add_pe_ratio_spec epsDF 0).1 le_rfl
  · have h := ((add_pe_ratio_spec epsDF 150).2 (by norm_num) (by decide)).1
    rw [h]
    norm_num [epsDF, DF.getCol, List.lookup, PVal.div, PVal.replaceInf]

/-! ### Claim C7 — FCF metrics asymmetry -/

/-- C7: for a non-empty cashflow frame with both `freeCashFlow` and
`stockBasedCompensation` columns (and no pre-existing `fcf_yield`
column), `add_fcf_metrics` always adds `fcf_minus_sbc` as the
elementwise difference; `fcf_yield = fcf_minus_sbc / market_cap * 100`
is added exactly when the market cap is strictly positive, and with
`market_cap ≤ 0` the `fcf_yield` column is entirely absent. -/
theorem add_fcf_metrics_spec (df : DF PVal) (mc : ℚ) (F S : List PVal)
    (hne : df.isEmpty = false)
    (hF : df.cols.lookup "freeCashFlow" = some F)
    (hS : df.cols.lookup "stockBasedCompensation" = some S)
    (hnoy : df.cols.lookup "fcf_yield" = none) :
    (add_fcf_metrics df mc).getCol "fcf_minus_sbc" = List.zipWith PVal.sub F S ∧
    (0 < mc → (add_fcf_metrics df mc).cols.lookup "fcf_yield"
      = some ((List.zipWith PVal.sub F S).map (fun v => (v.div (PVal.num mc)).mul100))) ∧
    (mc ≤ 0 → (add_fcf_metrics df mc).cols.lookup "fcf_yield" = none) := by
  have hcond : df.hasCol "freeCashFlow" = true ∧ df.hasCol "stockBasedCompensation" = true := by
    constructor <;> simp [DF.hasCol, hF, hS]
  have hFg : df.getCol "freeCashFlow" = F := by simp [DF.getCol, hF]
  have hSg : df.getCol "stockBasedCompensation" = S := by simp [DF.getCol, hS]
  unfold add_fcf_metrics
  rw [if_neg (by simp [hne]), if_pos hcond, hFg, hSg]
  by_cases hmc : 0 < mc
  · rw [if_pos hmc, DF.getCol_setCol_self]
    refine ⟨?_, fun _ => ?_, fun hle => absurd hmc (not_lt.mpr hle)⟩
    · rw [DF.getCol_setCol_ne _ _ _ _ (by decide), DF.getCol_setCol_self]
    · rw [DF.lookup_setCol_self]
  · rw [if_neg hmc]
    refine ⟨DF.getCol_setCol_self _ _ _, fun hpos => absurd hpos hmc, fun _ => ?_⟩
    rw [DF.lookup_setCol_ne _ _ _ _ (by decide)]
    exact hnoy

/-- Witness for C7 at `market_cap = 0`: `fcf_minus_sbc` is produced but
`fcf_yield` is entirely omitted. -/
theorem add_fcf_metrics_spec_witness :
    (add_fcf_metrics cashflowDF 0).getCol "fcf_minus_sbc"
      = [PVal.num (1000 - 100), PVal.num (2000 - 200), PVal.num (3000 - 300)] ∧
    (add_fcf_metrics cashflowDF 0).cols.lookup "fcf_yield" = none := by
  have h := add_fcf_metrics_spec cashflowDF 0
    [PVal.num 1000, PVal.num 2000, PVal.num 3000]
    [PVal.num 100, PVal.num 200, PVal.num 300]
    (by decide) (by decide) (by decide) (by decide)
  refine ⟨?_, h.2.2 le_rfl⟩
  rw [h.1]
  rfl

/-! ### Claim C6 — profit margins keep infinity -/

theorem marginStep_nrows (acc : DF PVal) (mr : String × String) :
    (marginStep acc mr).nrows = acc.nrows := by
  unfold marginStep
  split
  · exact DF.nrows_setCol _ _ _
  · rfl

theorem marginStep_lookup_ne (acc : DF PVal) (mr : String × String) (c : String)
    (h : c ≠ mr.2) : (marginStep acc mr).cols.lookup c = acc.cols.lookup c := by
  unfold marginStep
  split
  · exact DF.lookup_setCol_ne _ _ _ _ h
  · rfl

theorem marginStep_getCol_ne (acc : DF PVal) (mr : String × String) (c : String)
    (h : c ≠ mr.2) : (marginStep acc mr).getCol c = acc.getCol c := by
  unfold DF.getCol
  rw [marginStep_lookup_ne _ _ _ h]

theorem marginStep_hasCol_ne (acc : DF PVal) (mr : String × String) (c : String)
    (h : c ≠ mr.2) : (marginStep acc mr).hasCol c = acc.hasCol c := by
  unfold DF.hasCol
  rw [marginStep_lookup_ne _ _ _ h]

theorem marginStep_self (acc : DF PVal) (mr : String × String) (M R : List PVal)
    (hb : acc.hasCol mr.1 = true) (hM : acc.getCol mr.1 = M) (hR : acc.getCol "revenue" = R) :
    marginStep acc mr = acc.setCol mr.2 (List.zipWith (fun m r => (m.div r).mul100) M R) := by
  unfold marginStep
  rw [if_pos hb, hM, hR]

/-- C6 (amended): for a non-empty income frame with a `revenue` column,
each margin column of a present metric equals `metric / revenue * 100`
elementwise and no period is dropped (the row count and column length
are preserved); a zero-revenue period with a positive metric yields a
bare `+inf` that is left in the series — it is NOT replaced by the NaN
sentinel, unlike the P/E policy. -/
theorem add_profit_margins_spec (df : DF PVal) (metric ratio : String)
    (M R : List PVal)
    (hmr : (metric, ratio) ∈ margin_metrics)
    (hrev : df.cols.lookup "revenue" = some R)
    (hM : df.cols.lookup metric = some M)
    (hne : df.isEmpty = false)
    (hMl : M.length = df.nrows) (hRl : R.length = df.nrows) :
    (add_profit_margins df).cols.lookup ratio
      = some (List.zipWith (fun m r => (m.div r).mul100) M R) ∧
    (add_profit_margins df).nrows = df.nrows ∧
    (List.zipWith (fun m r => (m.div r).mul100) M R).length = df.nrows ∧
    (∀ m : ℚ, 0 < m →
      ((PVal.num m).div (PVal.num 0)).mul100 = PVal.posInf ∧ PVal.posInf ≠ PVal.nan) := by
  have hrevb : df.hasCol "revenue" = true := by simp [DF.hasCol, hrev]
  have hguard : (!df.hasCol "revenue" || df.isEmpty) = false := by
    rw [hrevb, hne]
    rfl
  have hRg : df.getCol "revenue" = R := by simp [DF.getCol, hrev]
  have hMg : df.getCol metric = M := by simp [DF.getCol, hM]
  have hMb : df.hasCol metric = true := by simp [DF.hasCol, hM]
  have hlen : (List.zipWith (fun m r => (m.div r).mul100) M R).length = df.nrows := by
    rw [List.length_zipWith, hMl, hRl, min_self]
  have hinf : ∀ m : ℚ, 0 < m →
      ((PVal.num m).div (PVal.num 0)).mul100 = PVal.posInf ∧ PVal.posInf ≠ PVal.nan := by
    intro m hm
    constructor
    · simp [PVal.div, PVal.mul100, hm]
    · simp
  refine ⟨?_, ?_, hlen, hinf⟩
  · -- the ratio column
    unfold add_profit_margins
    rw [if_neg (by rw [hguard]; simp)]
    simp only [margin_metrics, List.foldl_cons, List.foldl_nil]
    fin_cases hmr
    · rw [marginStep_lookup_ne _ _ _ (by decide), marginStep_lookup_ne _ _ _ (by decide),
        marginStep_self df _ M R hMb hMg hRg, DF.lookup_setCol_self]
    · rw [marginStep_lookup_ne _ _ _ (by decide),
        marginStep_self (marginStep df ("grossProfit", "grossProfitRatio")) _ M R
          (by rw [marginStep_hasCol_ne _ _ _ (by decide)]; exact hMb)
          (by rw [marginStep_getCol_ne _ _ _ (by decide)]; exact hMg)
          (by rw [marginStep_getCol_ne _ _ _ (by decide)]; exact hRg),
        DF.lookup_setCol_self]
    · rw [marginStep_self
          (marginStep (marginStep df ("grossProfit", "grossProfitRatio"))
            ("operatingIncome", "operatingIncomeRatio")) _ M R
          (by rw [marginStep_hasCol_ne _ _ _ (by decide),
                marginStep_hasCol_ne _ _ _ (by decide)]; exact hMb)
          (by rw [marginStep_getCol_ne _ _ _ (by decide),
                marginStep_getCol_ne _ _ _ (by decide)]; exact hMg)
          (by rw [marginStep_getCol_ne _ _ _ (by decide),
                marginStep_getCol_ne _ _ _ (by decide)]; exact hRg),
        DF.lookup_setCol_self]
  · -- the row count
    unfold add_profit_margins
    rw [if_neg (by rw [hguard]; simp)]
    simp only [margin_metrics, List.foldl_cons, List.foldl_nil]
    rw [marginStep_nrows, marginStep_nrows, marginStep_nrows]

/-- Counterexample to C6 as stated: the zero-revenue period's margin is
computed as a bare `+inf` and left in the series — it is not replaced by
the NaN undefined sentinel (the claim requires the P/E replacement
policy). -/
theorem add_profit_margins_inf_cex :
    (add_profit_margins marginCexDF).cols.lookup "grossProfitRatio" = some [PVal.posInf] ∧
    PVal.posInf ≠ PVal.nan := by
  decide

/-- Witness for C6 (amended) on a frame with a zero-revenue period. -/
theorem add_profit_margins_spec_witness :
    (add_profit_margins marginWitnessDF).cols.lookup "grossProfitRatio"
      = some (List.zipWith (fun m r => (m.div r).mul100)
          [PVal.num 30, PVal.num 60] [PVal.num 0, PVal.num 100]) ∧
    (add_profit_margins marginWitnessDF).nrows = 2 := by
  have h := add_profit_margins_spec marginWitnessDF "grossProfit" "grossProfitRatio"
    [PVal.num 30, PVal.num 60] [PVal.num 0, PVal.num 100]
    (by decide) (by decide) (by decide) (by decide) (by decide) (by decide)
  exact ⟨h.1, h.2.1⟩

/-! ### Claim C9 — date sorting in `to_financial_dataframe` -/

/-- C9 (amended): `to_financial_dataframe` returns an empty frame on
empty input; for every input the output rows are sorted non-decreasingly
by parsed date, and whenever the input dates are pairwise distinct the
output is strictly ascending.  (Duplicate dates are kept, so strictness
can fail — see the counterexample.) -/
theorem to_financial_dataframe_sorted {α : Type} (data : List (ℕ × α)) :
    to_financial_dataframe ([] : List (ℕ × α)) = [] ∧
    ((to_financial_dataframe data).map Prod.fst).Sorted (· ≤ ·) ∧
    ((data.map Prod.fst).Nodup →
      ((to_financial_dataframe data).map Prod.fst).Sorted (· < ·)) := by
  have hsorted : ((to_financial_dataframe data).map Prod.fst).Sorted (· ≤ ·) := by
    unfold to_financial_dataframe
    split
    · simp
    · have hs := List.sorted_insertionSort (fun a b : ℕ × α => a.1 ≤ b.1) data
      rw [List.Sorted, List.pairwise_map]
      exact hs
  refine ⟨rfl, hsorted, fun hnd => List.Sorted.lt_of_le hsorted ?_⟩
  unfold to_financial_dataframe
  split
  · simp
  · have hp := List.perm_insertionSort (fun a b : ℕ × α => a.1 ≤ b.1) data
    exact ((hp.map Prod.fst).nodup_iff).mpr hnd

/-- Counterexample to C9 as stated: two records with the same date stay
duplicated, so the output is not strictly ascending by date. -/
theorem to_financial_dataframe_strict_cex :
    ¬ (((to_financial_dataframe [(1, 0), (1, 1)]).map Prod.fst).Sorted (· < ·)) := by
  decide

/-- Witness for C9 (amended) on an unsorted three-record input with
distinct dates. -/
theorem to_financial_dataframe_sorted_witness :
    ((to_financial_dataframe [(3, 0), (1, 1), (2, 2)]).map Prod.fst).Sorted (· < ·) :=
  (to_financial_dataframe_sorted [(3, 0), (1, 1), (2, 2)]).2.2 (by decide)

/-! ### Claim C10 — the two CAGR-map implementations agree -/

/-- C10: on any frame that contains the requested metric column, the
newer `calculate_metric_cagrs` (older element named `start_val`) and the
older `get_cagr_for_metric` (older element named `end_val`, but passed
first) produce equal result maps: despite the swapped variable names both
compute CAGR from the older value to the newest value. -/
theorem cagr_impl_equiv (powf : ℚ → ℚ → ℚ) (df : DF ℚ) (metric_col : String)
    (periods : List ℕ) (h : df.hasCol metric_col = true) :
    calculate_metric_cagrs powf df metric_col periods
      = get_cagr_for_metric powf df metric_col periods := by
  unfold calculate_metric_cagrs get_cagr_for_metric
  apply List.foldl_ext
  intro acc p _
  by_cases hp : p < df.nrows
  · simp [hp, h]
  · simp [hp]

/-- Witness for C10 on the five-point revenue series and the default
window list. -/
theorem cagr_impl_equiv_witness :
    calculate_metric_cagrs (fun a _ => a) cagrDF "revenue" [1, 2, 3, 5]
      = get_cagr_for_metric (fun a _ => a) cagrDF "revenue" [1, 2, 3, 5] :=
  cagr_impl_equiv (fun a _ => a) cagrDF "revenue" [1, 2, 3, 5] (by decide)

/-! ### Claim C4 — CAGR-map key presence and value format -/

theorem digitChar_isDigit (d : ℕ) (h : d < 10) : (Char.ofNat (48 + d)).isDigit = true := by
  interval_cases d <;> decide

/-- Every string `fmtPct` produces has exactly two decimal digits
followed by a percent sign. -/
theorem fmtPct_twoDecimalPercent (q : ℚ) : twoDecimalPercent (fmtPct q) := by
  refine ⟨(if q < 0 then "-" else "") ++ toString ((⌊|q| * 100 + 1 / 2⌋).toNat / 100),
    Char.ofNat (48 + (⌊|q| * 100 + 1 / 2⌋).toNat % 100 / 10 % 10),
    Char.ofNat (48 + (⌊|q| * 100 + 1 / 2⌋).toNat % 100 % 10), ?_, ?_, ?_⟩
  · exact digitChar_isDigit _ (Nat.mod_lt _ (by norm_num))
  · exact digitChar_isDigit _ (Nat.mod_lt _ (by norm_num))
  · unfold fmtPct fmt2 twoDigits
    simp [String.append_assoc]

/-- C4 (amended): the result map of `calculate_metric_cagrs` on the
single window `p` contains the key `"{p}Y"` iff the series has more than
`p` data points AND `p ≥ 1` AND both the start value (`p+1` positions
from the end) and the end value (last element) are strictly positive;
otherwise the key is omitted (never zero-filled, never an error).  Every
present value is the CAGR of those start/end values formatted with
exactly two decimal digits followed by `%`. -/
theorem calculate_metric_cagrs_key (powf : ℚ → ℚ → ℚ) (df : DF ℚ) (metric_col : String)
    (S : List ℚ) (p : ℕ)
    (hS : df.cols.lookup metric_col = some S) (hlen : S.length = df.nrows) :
    (((calculate_metric_cagrs powf df metric_col [p]).lookup (toString p ++ "Y")).isSome
      ↔ (p < S.length ∧ 0 < p ∧
          0 < S.getD (S.length - (p + 1)) 0 ∧ 0 < S.getD (S.length - 1) 0)) ∧
    (∀ v, (calculate_metric_cagrs powf df metric_col [p]).lookup (toString p ++ "Y") = some v →
      v = fmtPct ((powf (S.getD (S.length - 1) 0 / S.getD (S.length - (p + 1)) 0)
            (1 / ((p : ℤ) : ℚ)) - 1) * 100) ∧
      twoDecimalPercent v) := by
  have hcol : df.hasCol metric_col = true := by simp [DF.hasCol, hS]
  have hget : df.getCol metric_col = S := by simp [DF.getCol, hS]
  unfold calculate_metric_cagrs
  simp only [List.foldl_cons, List.foldl_nil, hget, ← hlen]
  by_cases hp : p < S.length
  · rw [if_pos ⟨hp, hcol⟩]
    by_cases hpos : 0 < p ∧ 0 < S.getD (S.length - (p + 1)) 0 ∧ 0 < S.getD (S.length - 1) 0
    · obtain ⟨hp0, hs0, he0⟩ := hpos
      have hguard : ¬(S.getD (S.length - (p + 1)) 0 ≤ 0 ∨ S.getD (S.length - 1) 0 ≤ 0
          ∨ (p : ℤ) ≤ 0) := by
        push_neg
        exact ⟨hs0, he0, by exact_mod_cast hp0⟩
      simp only [calculate_cagr, if_neg hguard]
      constructor
      · constructor
        · intro _
          exact ⟨hp, hp0, hs0, he0⟩
        · intro _
          simp [List.lookup]
      · intro v hv
        simp only [List.nil_append, List.lookup, beq_self_eq_true] at hv
        have hv' : v = fmtPct ((powf (S.getD (S.length - 1) 0 / S.getD (S.length - (p + 1)) 0)
            (1 / ((p : ℤ) : ℚ)) - 1) * 100) := by
          exact (Option.some_inj.mp hv).symm
        exact ⟨hv', hv' ▸ fmtPct_twoDecimalPercent _⟩
    · have hguard' : S.getD (S.length - (p + 1)) 0 ≤ 0 ∨ S.getD (S.length - 1) 0 ≤ 0
          ∨ (p : ℤ) ≤ 0 := by
        by_cases hp0 : 0 < p
        · by_cases hs0 : 0 < S.getD (S.length - (p + 1)) 0
          · by_cases he0 : 0 < S.getD (S.length - 1) 0
            · exact absurd ⟨hp0, hs0, he0⟩ hpos
            · exact Or.inr (Or.inl (not_lt.mp he0))
          · exact Or.inl (not_lt.mp hs0)
        · exact Or.inr (Or.inr (by exact_mod_cast Nat.le_of_not_lt hp0))
      simp only [calculate_cagr, if_pos hguard']
      constructor
      · simp only [List.lookup_nil, Option.isSome_none, Bool.false_eq_true, false_iff]
        rintro ⟨-, h0, hs0, he0⟩
        exact hpos ⟨h0, hs0, he0⟩
      · intro v hv
        simp at hv
  · rw [if_neg (fun hc => hp hc.1)]
    constructor
    · simp only [List.lookup_nil, Option.isSome_none, Bool.false_eq_true, false_iff]
      rintro ⟨hlt, -⟩
      exact hp hlt
    · intro v hv
      simp at hv

/-- Counterexample to C4 as stated: the series has more than `p = 1`
data points, yet the result map does not contain the key `"1Y"`, because
the start value `-1` is non-positive and CAGR is undefined — so "key
present iff more than `p` points" is false. -/
theorem calculate_metric_cagrs_key_cex :
    1 < [(-1 : ℚ), 1].length ∧
    cagrCexDF.cols.lookup "revenue" = some [(-1 : ℚ), 1] ∧
    (calculate_metric_cagrs (fun a _ => a) cagrCexDF "revenue" [1]).lookup (toString 1 ++ "Y")
      = none := by
  refine ⟨by decide, by decide, ?_⟩
  decide

/-- Witness for C4 (amended): on a positive two-point series with
`p = 1` the key is present. -/
theorem calculate_metric_cagrs_key_witness :
    ((calculate_metric_cagrs (fun a _ => a) cagrWitDF "m" [1]).lookup
      (toString 1 ++ "Y")).isSome = true := by
  have h := calculate_metric_cagrs_key (fun a _ => a) cagrWitDF "m" [1, 2] 1
    (by decide) (by decide)
  exact h.1.mpr (by decide)

end FCF
